/-
  Verification of the oil-market-backend order placement transaction and
  catalog query engine.

  Shallow embedding of the Express/Prisma route handlers:
    * src/routes/orders.js   (order creation, tracking lookup, number generators)
    * src/routes/products.js (catalog query, facet aggregation)
    * src/routes/admin.js    (requireAdmin guard, product update)
    * prisma migration       (data model)

  Conventions of the embedding:
    * JS numbers used as money (DOUBLE PRECISION price / totalAmount) are
      modelled as ℚ; integer columns (stock, quantity) as ℤ.
    * `NaN` produced by a failed parseInt/parseFloat is modelled as `none`
      of an `Option`; a query argument that is `NaN` is rejected by the
      store's argument validation, and the route's catch turns the throw
      into the 500 response.
    * The database is a `MarketState` record of lists; `findMany`,
      `findUnique`, `update`, `create` become list operations; a Prisma
      `$transaction` of writes becomes a single state-to-state function.
    * `Math.random()`-derived values enter the generator functions as
      explicit arguments (the drawn number, resp. the base-36 digit
      expansion of the drawn number).
-/
import Mathlib

namespace OilMarket

/-! ## Data model (prisma migration) -/

/-- A row of the `Product` table.  `images` keeps the string array; the JSONB
`characteristics` column and the timestamps are not read by any code under
verification and are omitted. -/
structure Product where
  id : Nat
  sku : Option String
  name : String
  description : Option String
  brand : Option String
  type : Option String
  viscosity : Option String
  volume_ml : Option Int
  application : Option String
  price : ℚ
  stock : Int
  images : List String
  deriving DecidableEq, Repr

/-- A row of the `OrderItem` table (the `orderId`/`id` surrogate keys are
represented by nesting the items inside their order). -/
structure OrderItem where
  productId : Nat
  quantity : Int
  priceEach : ℚ
  deriving DecidableEq, Repr

/-- The structured delivery address stored in the JSONB `deliveryAddress`
column. -/
structure Address where
  city : String
  street : String
  house : String
  apartment : Option String
  comment : Option String
  deriving DecidableEq, Repr

/-- A row of the `Order` table with its line items nested. -/
structure Order where
  id : Nat
  orderNumber : String
  userId : Option Nat
  contactName : String
  phone : String
  email : Option String
  deliveryMethod : String
  deliveryAddress : Option Address
  paymentMethod : String
  totalAmount : ℚ
  status : String
  trackingNumber : String
  notes : Option String
  items : List OrderItem
  deriving DecidableEq, Repr

/-- A row of the `User` table. -/
structure User where
  id : Nat
  email : String
  phone : Option String
  name : Option String
  deriving DecidableEq, Repr

/-- The persistent store: the three tables the order and catalog routes touch. -/
structure MarketState where
  products : List Product
  orders : List Order
  users : List User
  deriving DecidableEq, Repr

/-! ## Identifier generators (src/routes/orders.js lines 6-18) -/

/-- Two-digit zero padding, as produced inside `Date.prototype.toISOString`
for the year-mod-100 / month / day segments. -/
def pad2 (n : Nat) : String :=
  if n < 10 then "0" ++ toString n else toString n

/-- The `datePart` of `generateOrderNumber`: `toISOString().slice(2, 10)`
with the dashes removed, i.e. the date encoded as YYMMDD. -/
def yymmdd (year month day : Nat) : String :=
  pad2 (year % 100) ++ pad2 month ++ pad2 day

/-- JS `s.padStart(4, '0')`. -/
def padStart4Zero (s : String) : String :=
  if 4 ≤ s.length then s else String.mk (List.replicate (4 - s.length) '0') ++ s

/-- `generateOrderNumber` (orders.js line 7).  `pfx` is `process.env.ORDER_PREFIX`
(`none` when unset); `rand` is `Math.floor(Math.random() * 10000)`, so the
caller knows `rand < 10000`. -/
def generateOrderNumber (pfx : Option String) (year month day : Nat) (rand : Nat) : String :=
  pfx.getD "OM" ++ yymmdd year month day ++ padStart4Zero (toString rand)

/-- The character JS uses for one base-36 digit (`0`-`9` then `a`-`z`). -/
def base36Char (d : Nat) : Char :=
  if d < 10 then Char.ofNat (48 + d) else Char.ofNat (87 + d)

/-- `Math.random().toString(36)`: `"0"` for the draw 0, otherwise `"0."`
followed by the base-36 fractional digits of the draw (a nonempty list whose
last digit is nonzero). -/
def jsNumToString36 (digits : List Nat) : String :=
  if digits.isEmpty then "0" else String.mk ('0' :: '.' :: digits.map base36Char)

/-- `generateTrackingNumber` (orders.js line 15).  `pfx` is
`process.env.TRACKING_PREFIX`; `digits` is the base-36 fractional expansion of
the `Math.random()` draw.  `substring(2, 10)` keeps the characters at
positions `[2, 10)` and `toUpperCase` upper-cases each of them. -/
def generateTrackingNumber (pfx : Option String) (digits : List Nat) : String :=
  pfx.getD "OIL" ++ String.mk ((((jsNumToString36 digits).data.drop 2).take 8).map Char.toUpper)

/-! ## Order placement (src/routes/orders.js `router.post('/')`) -/

/-- One entry of the validated `items` array. -/
structure ReqItem where
  productId : Nat
  quantity : Int
  deriving DecidableEq, Repr

/-- The Joi-validated order creation body. -/
structure OrderRequest where
  contactName : String
  phone : String
  email : Option String
  deliveryMethod : String
  deliveryAddress : Option Address
  paymentMethod : String
  items : List ReqItem
  userId : Option Nat
  notes : Option String
  deriving DecidableEq, Repr

/-- The failure cases of the product resolution / stock check phase. -/
inductive PlanError where
  /-- the `products.length !== items.length` gate (404 "Some products not found") -/
  | productsNotFound : PlanError
  /-- the in-loop `if (!product)` branch (404 "Product ... not found") -/
  | productNotFound (productId : Nat) : PlanError
  /-- the `product.stock < item.quantity` branch (400 Insufficient stock) -/
  | insufficient (productId : Nat) (name : String) (available : Int) : PlanError
  deriving DecidableEq, Repr

/-- What the check loop accumulates: `totalAmount`, the `stockUpdates` (pairs
of product id and the absolute new stock value written by
`prisma.product.update`), and the `orderItems`. -/
structure OrderPlan where
  totalAmount : ℚ
  stockUpdates : List (Nat × Int)
  orderItems : List OrderItem
  deriving DecidableEq, Repr

/-- `items.map(item => item.productId)`. -/
def requestIds (req : OrderRequest) : List Nat :=
  req.items.map (fun it => it.productId)

/-- `prisma.product.findMany({ where: { id: { in: productIds } } })`:
the rows whose id occurs in the request. -/
def lookedUp (st : MarketState) (req : OrderRequest) : List Product :=
  st.products.filter (fun p => (requestIds req).contains p.id)

/-- The `for (const item of items)` loop (orders.js lines 73-103): find the
product, fail on the first insufficient line, otherwise accumulate the
total, the stock update and the order item. -/
def checkItems (ps : List Product) :
    List ReqItem → ℚ → List (Nat × Int) → List OrderItem → Except PlanError OrderPlan
  | [], total, su, oi => .ok ⟨total, su, oi⟩
  | it :: rest, total, su, oi =>
    match ps.find? (fun p => p.id == it.productId) with
    | none => .error (.productNotFound it.productId)
    | some p =>
      if p.stock < it.quantity then
        .error (.insufficient p.id p.name p.stock)
      else
        checkItems ps rest (total + p.price * (it.quantity : ℚ))
          (su ++ [(p.id, p.stock - it.quantity)])
          (oi ++ [⟨p.id, it.quantity, p.price⟩])

/-- The read-and-validate phase of order creation: batch lookup, the
`products.length !== items.length` gate, then the check loop. -/
def planOrder (st : MarketState) (req : OrderRequest) : Except PlanError OrderPlan :=
  if (lookedUp st req).length ≠ req.items.length then .error .productsNotFound
  else checkItems (lookedUp st req) req.items 0 [] []

/-- `prisma.product.update({ where: { id }, data: { stock: newStock } })`:
an absolute write of the stock column. -/
def updateStock (ps : List Product) (pid : Nat) (newStock : Int) : List Product :=
  ps.map (fun p => if p.id == pid then { p with stock := newStock } else p)

/-- Apply the batched `stockUpdates` in order. -/
def applyStockUpdates (ps : List Product) (us : List (Nat × Int)) : List Product :=
  us.foldl (fun acc u => updateStock acc u.1 u.2) ps

/-- The order row inserted by `prisma.order.create` (id from the serial
sequence, status defaulted to `"new"`). -/
def newOrderOf (st : MarketState) (req : OrderRequest) (plan : OrderPlan)
    (orderNo trackNo : String) : Order :=
  { id := st.orders.length + 1
    orderNumber := orderNo
    userId := req.userId
    contactName := req.contactName
    phone := req.phone
    email := req.email
    deliveryMethod := req.deliveryMethod
    deliveryAddress := req.deliveryAddress
    paymentMethod := req.paymentMethod
    totalAmount := plan.totalAmount
    status := "new"
    trackingNumber := trackNo
    notes := req.notes
    items := plan.orderItems }

/-- The `prisma.$transaction([order.create, ...stockUpdates])` of orders.js
lines 110-138: insert the order with its nested items and apply every stock
write, as one all-or-nothing state change. -/
def commitOrder (st : MarketState) (req : OrderRequest) (plan : OrderPlan)
    (orderNo trackNo : String) : MarketState :=
  { st with
    orders := st.orders ++ [newOrderOf st req plan orderNo trackNo]
    products := applyStockUpdates st.products plan.stockUpdates }

/-- `prisma.user.update` of orders.js lines 142-149: overwrite phone and name,
overwrite email only when the order carries a non-empty one (`email ||
undefined`).  Returns `none` (a thrown `P2025`) when no user has this id. -/
def refreshUser (users : List User) (uid : Nat) (ph nm : String) (em : Option String) :
    Option (List User) :=
  if users.any (fun u => u.id == uid) then
    some (users.map (fun u =>
      if u.id == uid then
        { u with
          phone := some ph
          name := some nm
          email := match em with
            | some e => if e = "" then u.email else e
            | none => u.email }
      else u))
  else none

/-- The JSON responses the order creation route can produce. -/
inductive PlaceResponse where
  | notFound (message : String) : PlaceResponse
  | insufficientStock (message : String) (productId : Nat) : PlaceResponse
  | serverError : PlaceResponse
  | created (orderId : Nat) (orderNumber trackingNumber : String)
      (totalAmount : ℚ) (status : String) : PlaceResponse
  deriving DecidableEq, Repr

/-- The response body for each `PlanError`, with the literal message strings of
orders.js lines 65, 77 and 81-84. -/
def respOfError : PlanError → PlaceResponse
  | .productsNotFound => .notFound "Some products not found"
  | .productNotFound pid => .notFound ("Product " ++ toString pid ++ " not found")
  | .insufficient pid nm avail =>
      .insufficientStock ("Insufficient stock for " ++ nm ++ ". Available: " ++ toString avail) pid

/-- Step 6 of the route, after the transaction has committed to `st1`: when
the order carries a user id, refresh that user's contact info.  A failing
refresh (`none` from `refreshUser`) is caught by the route's try/catch
(orders.js line 168) and answered with the 500 response, while the committed
transaction stays in the store. -/
def afterCommit (st1 : MarketState) (resp : PlaceResponse) (uidO : Option Nat)
    (ph nm : String) (em : Option String) : PlaceResponse × MarketState :=
  match uidO with
  | none => (resp, st1)
  | some uid =>
    match refreshUser st1.users uid ph nm em with
    | none => (.serverError, st1)
    | some users1 => (resp, { st1 with users := users1 })

/-- The whole `router.post('/')` handler run against the store: plan, commit
inside the transaction, then the user-info refresh. -/
def placeOrder (st : MarketState) (req : OrderRequest) (orderNo trackNo : String) :
    PlaceResponse × MarketState :=
  match planOrder st req with
  | .error e => (respOfError e, st)
  | .ok plan =>
    afterCommit (commitOrder st req plan orderNo trackNo)
      (.created (st.orders.length + 1) orderNo trackNo plan.totalAmount "new")
      req.userId req.phone req.contactName req.email

/-- Two concurrent `router.post('/')` requests against the same store, in the
interleaving the handler permits: each request's `findMany` read and stock
check (the plan phase) complete against the initial store before either
`$transaction` commits, and the two transactions then commit one after the
other (the row writes are serialized by the database; each write stores the
absolute stock value computed from its own stale read).  Guest orders are
assumed, so the post-commit user refresh does not apply. -/
def concurrentPlacement (st : MarketState) (r1 r2 : OrderRequest)
    (n1 t1 n2 t2 : String) : PlaceResponse × PlaceResponse × MarketState :=
  match planOrder st r1, planOrder st r2 with
  | .error e1, .error e2 => (respOfError e1, respOfError e2, st)
  | .error e1, .ok p2 =>
    (respOfError e1,
     .created (st.orders.length + 1) n2 t2 p2.totalAmount "new",
     commitOrder st r2 p2 n2 t2)
  | .ok p1, .error e2 =>
    (.created (st.orders.length + 1) n1 t1 p1.totalAmount "new",
     respOfError e2,
     commitOrder st r1 p1 n1 t1)
  | .ok p1, .ok p2 =>
    (.created (st.orders.length + 1) n1 t1 p1.totalAmount "new",
     .created ((commitOrder st r1 p1 n1 t1).orders.length + 1) n2 t2 p2.totalAmount "new",
     commitOrder (commitOrder st r1 p1 n1 t1) r2 p2 n2 t2)

/-- Total quantity of product `pid` committed across all order rows. -/
def soldUnits (st : MarketState) (pid : Nat) : Int :=
  (st.orders.map (fun o =>
    ((o.items.filter (fun it => it.productId == pid)).map (fun it => it.quantity)).sum)).sum

/-- The stored stock of product `pid`. -/
def stockOf (st : MarketState) (pid : Nat) : Option Int :=
  (st.products.find? (fun p => p.id == pid)).map (fun p => p.stock)

/-- The price write of the admin product update route
(`prisma.product.update`, admin.js lines 281-284), restricted to the price
column. -/
def updateProductPrice (st : MarketState) (pid : Nat) (newPrice : ℚ) : MarketState :=
  { st with
    products := st.products.map (fun p =>
      if p.id == pid then { p with price := newPrice } else p) }

/-! ## Tracking lookup (src/routes/orders.js `router.get('/track/:trackingNumber')`) -/

/-- The order as returned by the tracking route: the destructuring
`const { deliveryAddress, email, ...safeOrder } = order` keeps every column
except `deliveryAddress` and `email`. -/
structure SafeOrder where
  id : Nat
  orderNumber : String
  userId : Option Nat
  contactName : String
  phone : String
  deliveryMethod : String
  paymentMethod : String
  totalAmount : ℚ
  status : String
  trackingNumber : String
  notes : Option String
  items : List OrderItem
  deriving DecidableEq, Repr

/-- Drop the `deliveryAddress` and `email` fields of an order. -/
def safeOrderOf (o : Order) : SafeOrder :=
  { id := o.id
    orderNumber := o.orderNumber
    userId := o.userId
    contactName := o.contactName
    phone := o.phone
    deliveryMethod := o.deliveryMethod
    paymentMethod := o.paymentMethod
    totalAmount := o.totalAmount
    status := o.status
    trackingNumber := o.trackingNumber
    notes := o.notes
    items := o.items }

/-- The JSON responses of the tracking route. -/
inductive TrackResponse where
  | badRequest (message : String) : TrackResponse
  | notFound (message : String) : TrackResponse
  | forbidden (message : String) : TrackResponse
  | ok (order : SafeOrder) : TrackResponse
  deriving DecidableEq, Repr

/-- The `router.get('/track/:trackingNumber')` handler (orders.js lines
175-221).  `phone` is the query parameter: `none` when absent, and the JS
`if (!phone)` also treats the empty string as missing. -/
def trackOrder (st : MarketState) (trackingNumber : String) :
    Option String → TrackResponse
  | none => .badRequest "Phone number is required"
  | some ph =>
    if ph = "" then .badRequest "Phone number is required"
    else
      match st.orders.find? (fun o => o.trackingNumber == trackingNumber) with
      | none => .notFound "Order not found"
      | some o =>
        if o.phone ≠ ph then .forbidden "Access denied. Phone number does not match."
        else .ok (safeOrderOf o)

/-! ## Catalog query engine (src/routes/products.js `router.get('/')`) -/

/-- The raw query-string parameters of the catalog route (each is a string
when supplied, `none` when absent). -/
structure CatalogParams where
  q : Option String := none
  type : Option String := none
  viscosity : Option String := none
  brand : Option String := none
  volume : Option String := none
  application : Option String := none
  minPrice : Option String := none
  maxPrice : Option String := none
  inStock : Option String := none
  sortBy : Option String := none
  sortOrder : Option String := none
  page : Option String := none
  limit : Option String := none
  deriving DecidableEq, Repr

/-- `[...new Set(l)]`: remove duplicates keeping the first occurrence of each
value. -/
def setDedup {α : Type} [BEq α] : List α → List α
  | [] => []
  | x :: xs => x :: (setDedup xs).filter (fun y => y != x)

/-- Lexicographic comparison of character sequences by code point, the order
JS `Array.prototype.sort` applies to strings (pairwise code-unit
comparison). -/
def charSeqLe : List Char → List Char → Bool
  | [], _ => true
  | _ :: _, [] => false
  | a :: as, b :: bs =>
    if a.toNat = b.toNat then charSeqLe as bs else decide (a.toNat < b.toNat)

/-- The JS default string order. -/
def strLeB (a b : String) : Bool :=
  charSeqLe a.data b.data

theorem charSeqLe_total : ∀ as bs : List Char,
    charSeqLe as bs = true ∨ charSeqLe bs as = true := by
  intro as
  induction as with
  | nil => intro bs; exact Or.inl rfl
  | cons a as ih =>
    intro bs
    cases bs with
    | nil => exact Or.inr rfl
    | cons b bs =>
      by_cases hab : a.toNat = b.toNat
      · rcases ih bs with h | h
        · exact Or.inl (by simp [charSeqLe, hab, h])
        · exact Or.inr (by simp [charSeqLe, hab.symm, h])
      · by_cases hlt : a.toNat < b.toNat
        · exact Or.inl (by simp [charSeqLe, hab, hlt])
        · refine Or.inr ?_
          have hba : ¬ b.toNat = a.toNat := fun h => hab h.symm
          simp [charSeqLe, hba]
          omega

theorem charSeqLe_trans : ∀ as bs cs : List Char,
    charSeqLe as bs = true → charSeqLe bs cs = true → charSeqLe as cs = true := by
  intro as
  induction as with
  | nil => intro bs cs _ _; exact rfl
  | cons a as ih =>
    intro bs cs h1 h2
    cases bs with
    | nil => simp [charSeqLe] at h1
    | cons b bs =>
      cases cs with
      | nil => simp [charSeqLe] at h2
      | cons c cs =>
        simp only [charSeqLe] at h1 h2 ⊢
        by_cases hab : a.toNat = b.toNat
        · rw [if_pos hab] at h1
          by_cases hbc : b.toNat = c.toNat
          · rw [if_pos hbc] at h2
            rw [if_pos (hab.trans hbc)]
            exact ih bs cs h1 h2
          · rw [if_neg hbc] at h2
            have h2' : b.toNat < c.toNat := by simpa using h2
            rw [if_neg (by omega)]
            simp
            omega
        · rw [if_neg hab] at h1
          have h1' : a.toNat < b.toNat := by simpa using h1
          by_cases hbc : b.toNat = c.toNat
          · rw [if_neg (by omega)]
            simp
            omega
          · rw [if_neg hbc] at h2
            have h2' : b.toNat < c.toNat := by simpa using h2
            rw [if_neg (by omega)]
            simp
            omega

instance : IsTotal String (fun a b => strLeB a b = true) :=
  ⟨fun a b => charSeqLe_total a.data b.data⟩

instance : IsTrans String (fun a b => strLeB a b = true) :=
  ⟨fun a b c => charSeqLe_trans a.data b.data c.data⟩

/-- The facet pipeline for a string column (products.js lines 587-590):
`[...new Set(src.map(f).filter(Boolean))].sort()`.  `filter(Boolean)` drops
NULL and the empty string; the default `sort()` compares strings by code
units. -/
def facetStrings (src : List Product) (f : Product → Option String) : List String :=
  List.insertionSort (fun a b => strLeB a b = true)
    (setDedup ((src.filterMap f).filter (fun s => s != "")))

/-- The volume facet (products.js line 591): `filter(Boolean)` additionally
drops the number 0, and the comparator `(a, b) => a - b` sorts numerically. -/
def facetVolumes (src : List Product) : List Int :=
  List.insertionSort (fun a b => a ≤ b)
    (setDedup ((src.filterMap (fun p => p.volume_ml)).filter (fun n => n != 0)))

/-- `prisma.product.aggregate({ _min: { price } })` with the route's `|| 0`
fallback. -/
def priceMinOf (catalog : List Product) : ℚ :=
  match catalog with
  | [] => 0
  | p :: rest => rest.foldl (fun m q => min m q.price) p.price

/-- `prisma.product.aggregate({ _max: { price } })` with the route's `|| 0`
fallback. -/
def priceMaxOf (catalog : List Product) : ℚ :=
  match catalog with
  | [] => 0
  | p :: rest => rest.foldl (fun m q => max m q.price) p.price

/-- The set the facets are aggregated over (products.js line 575): the
in-stock rows exactly when `inStock === 'true'`, otherwise the whole catalog. -/
def facetSourceOf (catalog : List Product) (ps : CatalogParams) : List Product :=
  if ps.inStock = some "true" then catalog.filter (fun p => 0 < p.stock) else catalog

/-- The `filters` block of the route's 200 payload: the facet lists of the
third store query, aggregated over `facetSourceOf` (products.js lines
574-591), and the catalog-wide price range (lines 607-610). -/
structure CatalogResult where
  brands : List String
  types : List String
  viscosities : List String
  applications : List String
  volumes : List Int
  priceMin : ℚ
  priceMax : ℚ
  deriving DecidableEq, Repr

/-- The facet-aggregation part of the `router.get('/')` handler: the facets
over the catalog filtered by `{ stock: { gt: 0 } }` exactly when
`inStock === 'true'` (line 575), with the price range aggregated over the
whole catalog.  These queries take no numeric argument, so the block is the
same whatever the other parameters hold. -/
def runCatalog (catalog : List Product) (ps : CatalogParams) : CatalogResult :=
  { brands := facetStrings (facetSourceOf catalog ps) (fun p => p.brand)
    types := facetStrings (facetSourceOf catalog ps) (fun p => p.type)
    viscosities := facetStrings (facetSourceOf catalog ps) (fun p => p.viscosity)
    applications := facetStrings (facetSourceOf catalog ps) (fun p => p.application)
    volumes := facetVolumes (facetSourceOf catalog ps)
    priceMin := priceMinOf catalog
    priceMax := priceMaxOf catalog }

/-- Modelled from the spec: the "stock-filtered product set" of the facet
claim — the catalog restricted by the active stock-presence filter
(`stock > 0` for `inStock=true`, `stock == 0` for `inStock=false`, otherwise
unconstrained).  Written from the spec's words, for comparison with what the
route computes. -/
def specStockFilteredSet (catalog : List Product) (inStock : Option String) : List Product :=
  if inStock = some "true" then catalog.filter (fun p => 0 < p.stock)
  else if inStock = some "false" then catalog.filter (fun p => p.stock == 0)
  else catalog

/-! ## Admin guard (src/routes/admin.js lines 7-9) -/

/-- The transient session of a request. -/
structure Session where
  adminId : Option Nat
  adminRole : Option String
  deriving DecidableEq, Repr

/-- `requireAdmin`: the middleware calls `next()` unconditionally, admitting
every request whatever the session holds. -/
def requireAdmin (session : Session) : Bool :=
  true

/-- An admin-scoped route behind the guard: run the handler when the guard
admits, otherwise answer with the rejection. -/
def adminRoute {α : Type} (session : Session) (handler rejected : α) : α :=
  if requireAdmin session then handler else rejected

/-! ## Helper lemmas: decimal digit strings -/

theorem reprLenOne : ∀ n : Nat, n < 10 → (Nat.repr n).length = 1 := by decide

theorem reprLenTwo : ∀ n : Nat, n < 100 → 10 ≤ n → (Nat.repr n).length = 2 := by decide

theorem digitChar_isDigit : ∀ k : Nat, k < 10 → (Nat.digitChar k).isDigit = true := by decide

theorem toDigitsCore_digits (fuel : Nat) :
    ∀ (n : Nat) (acc : List Char), (∀ c ∈ acc, c.isDigit = true) →
      ∀ c ∈ Nat.toDigitsCore 10 fuel n acc, c.isDigit = true := by
  induction fuel with
  | zero => intro n acc hacc; simpa [Nat.toDigitsCore] using hacc
  | succ f ih =>
    intro n acc hacc c hc
    rw [Nat.toDigitsCore] at hc
    by_cases h : n / 10 = 0
    · simp only [h, if_true] at hc
      rcases List.mem_cons.mp hc with h1 | h2
      · subst h1; exact digitChar_isDigit _ (Nat.mod_lt _ (by norm_num))
      · exact hacc _ h2
    · simp only [h, if_false] at hc
      refine ih (n / 10) (Nat.digitChar (n % 10) :: acc) ?_ c hc
      intro d hd
      rcases List.mem_cons.mp hd with h1 | h2
      · subst h1; exact digitChar_isDigit _ (Nat.mod_lt _ (by norm_num))
      · exact hacc _ h2

theorem repr_all_digits (n : Nat) : (Nat.repr n).data.all Char.isDigit = true := by
  rw [List.all_eq_true]
  intro c hc
  have hmem : c ∈ Nat.toDigitsCore 10 (n + 1) n [] := by
    simpa [Nat.repr, Nat.toDigits, List.asString] using hc
  exact toDigitsCore_digits (n + 1) n [] (by simp) c hmem

theorem pad2_length {n : Nat} (h : n < 100) : (pad2 n).length = 2 := by
  unfold pad2
  by_cases h10 : n < 10
  · simp only [h10, if_true]
    rw [String.length_append]
    have ht : (toString n).length = 1 := reprLenOne n h10
    rw [ht]
    decide
  · simp only [h10, if_false]
    exact reprLenTwo n h (by omega)

theorem string_mk_length (l : List Char) : (String.mk l).length = l.length := rfl

theorem padStart4Zero_length {s : String} (h : s.length ≤ 4) :
    (padStart4Zero s).length = 4 := by
  unfold padStart4Zero
  by_cases h4 : 4 ≤ s.length
  · simp only [h4, if_true]; omega
  · simp only [h4, if_false]
    rw [String.length_append, string_mk_length, List.length_replicate]
    omega

theorem padStart4Zero_digits {s : String} (h : s.data.all Char.isDigit = true) :
    (padStart4Zero s).data.all Char.isDigit = true := by
  unfold padStart4Zero
  by_cases h4 : 4 ≤ s.length
  · simpa [h4] using h
  · simp only [h4, if_false]
    show ((String.mk (List.replicate (4 - s.length) '0') ++ s)).data.all Char.isDigit = true
    rw [List.all_eq_true] at h ⊢
    intro c hc
    have : (String.mk (List.replicate (4 - s.length) '0') ++ s).data
        = List.replicate (4 - s.length) '0' ++ s.data := rfl
    rw [this] at hc
    rcases List.mem_append.mp hc with h1 | h2
    · have := List.eq_of_mem_replicate h1
      subst this; decide
    · exact h c h2

/-! ## Helper lemmas: set dedup and the facet pipeline -/

theorem setDedup_mem {α : Type} [DecidableEq α] [BEq α] [LawfulBEq α] :
    ∀ (l : List α) (a : α), a ∈ setDedup l ↔ a ∈ l := by
  intro l
  induction l with
  | nil => intro a; simp [setDedup]
  | cons x xs ih =>
    intro a
    simp only [setDedup, List.mem_cons, List.mem_filter, bne_iff_ne]
    constructor
    · rintro (rfl | ⟨h1, _⟩)
      · exact Or.inl rfl
      · exact Or.inr ((ih a).mp h1)
    · rintro (rfl | h)
      · exact Or.inl rfl
      · by_cases hax : a = x
        · exact Or.inl hax
        · exact Or.inr ⟨(ih a).mpr h, hax⟩

theorem setDedup_nodup {α : Type} [DecidableEq α] [BEq α] [LawfulBEq α] :
    ∀ l : List α, (setDedup l).Nodup := by
  intro l
  induction l with
  | nil => simp [setDedup]
  | cons x xs ih =>
    refine List.Nodup.cons ?_ (List.Nodup.filter _ ih)
    intro hmem
    have := (List.mem_filter.mp hmem).2
    simp at this

/-- The spec-level characterisation of one string facet list. -/
def FacetStringOk (facet : List String) (src : List Product)
    (f : Product → Option String) : Prop :=
  facet.Sorted (fun a b => strLeB a b = true) ∧ facet.Nodup ∧
    ∀ b : String, b ∈ facet ↔ (b ≠ "" ∧ ∃ p ∈ src, f p = some b)

/-- The spec-level characterisation of the volume facet list. -/
def FacetVolumeOk (facet : List Int) (src : List Product) : Prop :=
  facet.Sorted (fun a b => a ≤ b) ∧ facet.Nodup ∧
    ∀ v : Int, v ∈ facet ↔ (v ≠ 0 ∧ ∃ p ∈ src, p.volume_ml = some v)

theorem facetStrings_ok (src : List Product) (f : Product → Option String) :
    FacetStringOk (facetStrings src f) src f := by
  refine ⟨List.sorted_insertionSort _ _, ?_, ?_⟩
  · exact (List.perm_insertionSort _ _).nodup_iff.mpr (setDedup_nodup _)
  · intro b
    simp only [facetStrings]
    rw [(List.perm_insertionSort _ _).mem_iff, setDedup_mem, List.mem_filter,
      List.mem_filterMap]
    simp only [bne_iff_ne]
    tauto

theorem facetVolumes_ok (src : List Product) :
    FacetVolumeOk (facetVolumes src) src := by
  refine ⟨List.sorted_insertionSort _ _, ?_, ?_⟩
  · exact (List.perm_insertionSort _ _).nodup_iff.mpr (setDedup_nodup _)
  · intro v
    simp only [facetVolumes]
    rw [(List.perm_insertionSort _ _).mem_iff, setDedup_mem, List.mem_filter,
      List.mem_filterMap]
    simp only [bne_iff_ne]
    tauto

/-! ## Helper lemmas: the price aggregates -/

theorem foldl_min_le (l : List ℚ) : ∀ a : ℚ,
    l.foldl min a ≤ a ∧ ∀ x ∈ l, l.foldl min a ≤ x := by
  induction l with
  | nil => intro a; simp
  | cons b t ih =>
    intro a
    have h := ih (min a b)
    refine ⟨le_trans h.1 (min_le_left a b), ?_⟩
    intro x hx
    rcases List.mem_cons.mp hx with rfl | hxt
    · exact le_trans h.1 (min_le_right a x)
    · exact h.2 x hxt

theorem le_foldl_max (l : List ℚ) : ∀ a : ℚ,
    a ≤ l.foldl max a ∧ ∀ x ∈ l, x ≤ l.foldl max a := by
  induction l with
  | nil => intro a; simp
  | cons b t ih =>
    intro a
    have h := ih (max a b)
    refine ⟨le_trans (le_max_left a b) h.1, ?_⟩
    intro x hx
    rcases List.mem_cons.mp hx with rfl | hxt
    · exact le_trans (le_max_right a x) h.1
    · exact h.2 x hxt

theorem priceMinOf_le (catalog : List Product) :
    ∀ p ∈ catalog, priceMinOf catalog ≤ p.price := by
  intro p hp
  cases catalog with
  | nil => cases hp
  | cons q rest =>
    have key : priceMinOf (q :: rest) = (rest.map (fun r => r.price)).foldl min q.price := by
      simp [priceMinOf, List.foldl_map]
    rw [key]
    rcases List.mem_cons.mp hp with rfl | hrest
    · exact (foldl_min_le _ _).1
    · exact (foldl_min_le _ _).2 p.price (List.mem_map_of_mem _ hrest)

theorem le_priceMaxOf (catalog : List Product) :
    ∀ p ∈ catalog, p.price ≤ priceMaxOf catalog := by
  intro p hp
  cases catalog with
  | nil => cases hp
  | cons q rest =>
    have key : priceMaxOf (q :: rest) = (rest.map (fun r => r.price)).foldl max q.price := by
      simp [priceMaxOf, List.foldl_map]
    rw [key]
    rcases List.mem_cons.mp hp with rfl | hrest
    · exact (le_foldl_max _ _).1
    · exact (le_foldl_max _ _).2 p.price (List.mem_map_of_mem _ hrest)

/-! ## Helper lemmas: the product resolution gate -/

theorem contains_true_iff (l : List Nat) (a : Nat) : l.contains a = true ↔ a ∈ l := by
  simp

theorem filter_map_comm (ids : List Nat) : ∀ catalog : List Product,
    (catalog.filter (fun p => ids.contains p.id)).map Product.id
      = (catalog.map Product.id).filter (fun x => ids.contains x) := by
  intro catalog
  induction catalog with
  | nil => rfl
  | cons a t ih =>
    have ih' : List.map Product.id (List.filter (fun p => decide (p.id ∈ ids)) t)
        = List.filter (fun x => decide (x ∈ ids)) (List.map Product.id t) := by
      simpa using ih
    by_cases h : a.id ∈ ids
    · simp [List.filter_cons, h, ih']
    · simp [List.filter_cons, h, ih']

theorem lookedUp_length (st : MarketState) (req : OrderRequest) :
    (lookedUp st req).length
      = ((st.products.map Product.id).filter
          (fun x => (requestIds req).contains x)).length := by
  rw [← filter_map_comm, List.length_map]
  rfl

theorem requestIds_length (req : OrderRequest) :
    (requestIds req).length = req.items.length := by
  simp [requestIds]

theorem gate_fail_missing {st : MarketState} {req : OrderRequest}
    (hnodup : (st.products.map Product.id).Nodup)
    {pid : Nat} (hpid : pid ∈ requestIds req)
    (hmiss : ∀ p ∈ st.products, p.id ≠ pid) :
    (lookedUp st req).length ≠ req.items.length := by
  rw [lookedUp_length, ← requestIds_length]
  have hnotL : pid ∉ st.products.map Product.id := by
    intro hmem
    obtain ⟨p, hp, hpe⟩ := List.mem_map.mp hmem
    exact hmiss p hp hpe
  set L := st.products.map Product.id with hL
  set I := requestIds req with hI
  set F := L.filter (fun x => I.contains x) with hF
  have hFnodup : F.Nodup := hnodup.filter _
  have hsub : F ⊆ I.dedup.erase pid := by
    intro x hx
    have hx' := List.mem_filter.mp hx
    have hxI : x ∈ I := (contains_true_iff _ _).mp hx'.2
    have hne : x ≠ pid := by
      intro h; subst h; exact hnotL hx'.1
    exact (List.mem_erase_of_ne hne).mpr (List.mem_dedup.mpr hxI)
  have h1 : F.length ≤ (I.dedup.erase pid).length :=
    (List.subperm_of_subset hFnodup hsub).length_le
  have h2 : (I.dedup.erase pid).length = I.dedup.length - 1 :=
    List.length_erase_of_mem (List.mem_dedup.mpr hpid)
  have h3 : I.dedup.length ≤ I.length := I.dedup_sublist.length_le
  have h4 : 1 ≤ I.dedup.length :=
    List.length_pos.mpr (List.ne_nil_of_mem (List.mem_dedup.mpr hpid))
  omega

theorem gate_fail_dup {st : MarketState} {req : OrderRequest}
    (hnodup : (st.products.map Product.id).Nodup)
    (hdup : ¬ (requestIds req).Nodup) :
    (lookedUp st req).length ≠ req.items.length := by
  rw [lookedUp_length, ← requestIds_length]
  set L := st.products.map Product.id with hL
  set I := requestIds req with hI
  set F := L.filter (fun x => I.contains x) with hF
  have hFnodup : F.Nodup := hnodup.filter _
  have hsub : F ⊆ I.dedup := by
    intro x hx
    exact List.mem_dedup.mpr ((contains_true_iff _ _).mp (List.mem_filter.mp hx).2)
  have h1 : F.length ≤ I.dedup.length :=
    (List.subperm_of_subset hFnodup hsub).length_le
  have h3 : I.dedup.length ≤ I.length := I.dedup_sublist.length_le
  have h5 : I.dedup.length ≠ I.length := by
    intro he
    exact hdup (I.dedup_sublist.eq_of_length he ▸ I.nodup_dedup)
  omega

theorem gate_pass {st : MarketState} {req : OrderRequest}
    (hnodup : (st.products.map Product.id).Nodup)
    (hids : (requestIds req).Nodup)
    (hall : ∀ pid ∈ requestIds req, ∃ p ∈ st.products, p.id = pid) :
    (lookedUp st req).length = req.items.length := by
  rw [lookedUp_length, ← requestIds_length]
  set L := st.products.map Product.id with hL
  set I := requestIds req with hI
  set F := L.filter (fun x => I.contains x) with hF
  have hFnodup : F.Nodup := hnodup.filter _
  have hFI : F ⊆ I := by
    intro x hx
    exact (contains_true_iff _ _).mp (List.mem_filter.mp hx).2
  have hIF : I ⊆ F := by
    intro pid hpid
    obtain ⟨p, hp, hpe⟩ := hall pid hpid
    refine List.mem_filter.mpr ⟨?_, (contains_true_iff _ _).mpr hpid⟩
    exact hpe ▸ List.mem_map_of_mem Product.id hp
  have h1 : F.length ≤ I.length := (List.subperm_of_subset hFnodup hFI).length_le
  have h2 : I.length ≤ F.length := (List.subperm_of_subset hids hIF).length_le
  omega

/-! ## Helper lemmas: the check loop -/

theorem find?_isSome_of_present {st : MarketState} {req : OrderRequest}
    (hall : ∀ pid ∈ requestIds req, ∃ p ∈ st.products, p.id = pid) :
    ∀ it ∈ req.items,
      ((lookedUp st req).find? (fun p => p.id == it.productId)).isSome := by
  intro it hit
  have hpid : it.productId ∈ requestIds req := List.mem_map_of_mem _ hit
  obtain ⟨p, hp, hpe⟩ := hall _ hpid
  rw [List.find?_isSome]
  refine ⟨p, List.mem_filter.mpr ⟨hp, ?_⟩, by simp [hpe]⟩
  rw [contains_true_iff, hpe]
  exact hpid

theorem checkItems_error_shape (ps : List Product) :
    ∀ (items : List ReqItem),
      (∀ it ∈ items, (ps.find? (fun p => p.id == it.productId)).isSome) →
      ∀ t su oi e, checkItems ps items t su oi = .error e →
        ∃ pid nm av, e = .insufficient pid nm av := by
  intro items
  induction items with
  | nil => intro _ t su oi e h; simp [checkItems] at h
  | cons it rest ih =>
    intro hfind t su oi e h
    have hsome := hfind it (List.mem_cons_self _ _)
    cases hfp : ps.find? (fun p => p.id == it.productId) with
    | none => rw [hfp] at hsome; simp at hsome
    | some p =>
      simp only [checkItems, hfp] at h
      by_cases hst : p.stock < it.quantity
      · rw [if_pos hst] at h
        exact ⟨p.id, p.name, p.stock, by injection h with h'; exact h'.symm⟩
      · rw [if_neg hst] at h
        exact ih (fun x hx => hfind x (List.mem_cons_of_mem _ hx)) _ _ _ _ h

theorem checkItems_first_insufficient (ps : List Product) :
    ∀ (pre : List ReqItem) (bad : ReqItem) (post : List ReqItem)
      (t : ℚ) (su : List (Nat × Int)) (oi : List OrderItem),
      (∀ it ∈ pre ++ bad :: post, (ps.find? (fun p => p.id == it.productId)).isSome) →
      (∀ it ∈ pre, ∀ p ∈ ps, p.id = it.productId → it.quantity ≤ p.stock) →
      (∀ p ∈ ps, p.id = bad.productId → p.stock < bad.quantity) →
      ∃ p, p ∈ ps ∧ p.id = bad.productId ∧
        checkItems ps (pre ++ bad :: post) t su oi
          = .error (.insufficient p.id p.name p.stock) := by
  intro pre
  induction pre with
  | nil =>
    intro bad post t su oi hfind hpre hbad
    have hsome := hfind bad (by simp)
    cases hfp : ps.find? (fun p => p.id == bad.productId) with
    | none => rw [hfp] at hsome; simp at hsome
    | some q =>
      have hqid : q.id = bad.productId := by simpa using List.find?_some hfp
      have hqmem := List.mem_of_find?_eq_some hfp
      have hstock := hbad q hqmem hqid
      refine ⟨q, hqmem, hqid, ?_⟩
      simp only [List.nil_append, checkItems, hfp]
      rw [if_pos hstock]
  | cons a pre' ih =>
    intro bad post t su oi hfind hpre hbad
    have hsome := hfind a (by simp)
    cases hfp : ps.find? (fun p => p.id == a.productId) with
    | none => rw [hfp] at hsome; simp at hsome
    | some q =>
      have hqid : q.id = a.productId := by simpa using List.find?_some hfp
      have hqmem := List.mem_of_find?_eq_some hfp
      have hle := hpre a (by simp) q hqmem hqid
      have hnot : ¬ q.stock < a.quantity := not_lt.mpr hle
      obtain ⟨p, hpmem, hpid, hrec⟩ := ih bad post (t + q.price * (a.quantity : ℚ))
        (su ++ [(q.id, q.stock - a.quantity)]) (oi ++ [⟨q.id, a.quantity, q.price⟩])
        (fun x hx => hfind x (by simp [List.mem_cons_of_mem, hx]))
        (fun x hx => hpre x (List.mem_cons_of_mem _ hx)) hbad
      refine ⟨p, hpmem, hpid, ?_⟩
      simp only [List.cons_append, checkItems, hfp]
      rw [if_neg hnot]
      exact hrec

theorem checkItems_ok (ps : List Product) :
    ∀ (items : List ReqItem) (t : ℚ) (su : List (Nat × Int)) (oi : List OrderItem)
      (plan : OrderPlan), checkItems ps items t su oi = .ok plan →
      ∃ rest : List OrderItem,
        plan.orderItems = oi ++ rest ∧
        plan.totalAmount = t + (rest.map (fun x => x.priceEach * (x.quantity : ℚ))).sum ∧
        List.Forall₂ (fun (it : ReqItem) (x : OrderItem) =>
          x.productId = it.productId ∧ x.quantity = it.quantity ∧
          ∃ p, p ∈ ps ∧ p.id = it.productId ∧ x.priceEach = p.price) items rest := by
  intro items
  induction items with
  | nil =>
    intro t su oi plan h
    simp only [checkItems] at h
    injection h with h'
    refine ⟨[], ?_, ?_, List.Forall₂.nil⟩
    · rw [← h']; simp
    · rw [← h']; simp
  | cons it rest ih =>
    intro t su oi plan h
    cases hfp : ps.find? (fun p => p.id == it.productId) with
    | none => simp [checkItems, hfp] at h
    | some q =>
      simp only [checkItems, hfp] at h
      by_cases hst : q.stock < it.quantity
      · rw [if_pos hst] at h; cases h
      · rw [if_neg hst] at h
        obtain ⟨tl, h1, h2, h3⟩ := ih _ _ _ _ h
        have hqid : q.id = it.productId := by simpa using List.find?_some hfp
        have hqmem := List.mem_of_find?_eq_some hfp
        refine ⟨⟨q.id, it.quantity, q.price⟩ :: tl, ?_, ?_, ?_⟩
        · rw [h1]; simp
        · rw [h2]; simp; ring
        · exact List.Forall₂.cons ⟨hqid, rfl, q, hqmem, hqid, rfl⟩ h3

/-! ## Helper lemmas: the order route around the plan -/

/-- Is a response the Not-Found error? -/
def isNotFoundResp : PlaceResponse → Bool
  | .notFound _ => true
  | _ => false

/-- Is a response the Insufficient-Stock error? -/
def isInsufficientResp : PlaceResponse → Bool
  | .insufficientStock _ _ => true
  | _ => false

theorem placeOrder_ok_state {st : MarketState} {req : OrderRequest} {plan : OrderPlan}
    (orderNo trackNo : String) (h : planOrder st req = .ok plan) :
    ((placeOrder st req orderNo trackNo).2).orders
        = st.orders ++ [newOrderOf st req plan orderNo trackNo] ∧
    ((placeOrder st req orderNo trackNo).2).products
        = applyStockUpdates st.products plan.stockUpdates := by
  have hpl : placeOrder st req orderNo trackNo
      = afterCommit (commitOrder st req plan orderNo trackNo)
          (.created (st.orders.length + 1) orderNo trackNo plan.totalAmount "new")
          req.userId req.phone req.contactName req.email := by
    unfold placeOrder
    rw [h]
  rw [hpl]
  cases req.userId with
  | none => exact ⟨rfl, rfl⟩
  | some uid =>
    simp only [afterCommit]
    cases hr : refreshUser (commitOrder st req plan orderNo trackNo).users uid
        req.phone req.contactName req.email with
    | none => exact ⟨rfl, rfl⟩
    | some users1 => exact ⟨rfl, rfl⟩

/-! ## Concrete fixtures used by the claim theorems -/

/-- A demonstration product: id 1, price 100, stock 5. -/
def demoProduct : Product :=
  { id := 1, sku := some "OIL-CAS-000001", name := "Oil 5W-40", description := none,
    brand := some "Castrol", type := some "synthetic", viscosity := some "5W-40",
    volume_ml := some 4000, application := some "petrol", price := 100, stock := 5,
    images := [] }

/-- A second demonstration product: id 2, price 50, stock 3. -/
def demoProduct2 : Product :=
  { id := 2, sku := some "OIL-SHE-000002", name := "Oil 10W-60", description := none,
    brand := some "Shell", type := some "mineral", viscosity := some "10W-60",
    volume_ml := some 1000, application := some "diesel", price := 50, stock := 3,
    images := [] }

/-- A store holding only `demoProduct`. -/
def demoState : MarketState := ⟨[demoProduct], [], []⟩

/-- A store holding `demoProduct` and `demoProduct2`. -/
def demoState2 : MarketState := ⟨[demoProduct, demoProduct2], [], []⟩

/-- A guest order request (no user id) for the given items. -/
def guestReq (items : List ReqItem) : OrderRequest :=
  { contactName := "Ivan Petrov", phone := "79990000000", email := none,
    deliveryMethod := "pickup", deliveryAddress := none, paymentMethod := "card",
    items := items, userId := none, notes := none }

/-- An order request tied to user id `uid`. -/
def userReq (uid : Nat) (items : List ReqItem) : OrderRequest :=
  { guestReq items with userId := some uid }

/-- The two placements of the C1 scenario: stock 5, two concurrent orders of
quantity 3 each. -/
def c1Run : PlaceResponse × PlaceResponse × MarketState :=
  concurrentPlacement demoState (guestReq [⟨1, 3⟩]) (guestReq [⟨1, 3⟩])
    "OM2510110001" "OILAAAAAAAA" "OM2510110002" "OILBBBBBBBB"

/-! ## C1 -/

/-- C1: the no-overselling property fails on the code.  With product 1 at
stock 5 and two concurrent orders of quantity 3 each — both stock checks
reading the initial stock before either transaction commits, which the
handler permits because the `findMany` read and the check loop run before
`prisma.$transaction` — both orders succeed, the committed order rows sell 6
units out of 5, and the stored stock ends at 2 because the second absolute
stock write overwrites the first (a lost update).  The claim required that at
most one such order succeed and the other observe Insufficient-Stock. -/
theorem C1_concurrent_oversell :
    demoProduct.stock = 5 ∧
    c1Run.1 = .created 1 "OM2510110001" "OILAAAAAAAA" 300 "new" ∧
    c1Run.2.1 = .created 2 "OM2510110002" "OILBBBBBBBB" 300 "new" ∧
    soldUnits c1Run.2.2 1 = 6 ∧
    stockOf c1Run.2.2 1 = some 2 ∧
    demoProduct.stock < soldUnits c1Run.2.2 1 := by
  norm_num [c1Run, concurrentPlacement, planOrder, lookedUp, requestIds, checkItems,
    commitOrder, newOrderOf, applyStockUpdates, updateStock, soldUnits, stockOf,
    demoState, demoProduct, guestReq, List.find?]

/-! ## C10 -/

/-- C10: the admin guard is a pass-through.  `requireAdmin` admits every
request whatever the session holds, so an admin-scoped route behaves
identically for any two sessions (logged in or not) and always runs its
handler. -/
theorem C10_admin_guard_passthrough :
    ∀ (α : Type) (s1 s2 : Session) (handler rejected : α),
      requireAdmin s1 = true ∧
      adminRoute s1 handler rejected = handler ∧
      adminRoute s1 handler rejected = adminRoute s2 handler rejected := by
  intro α s1 s2 handler rejected
  exact ⟨rfl, rfl, rfl⟩

/-! ## C2 -/

/-- C2, counterexample to "and only for such requests": a request whose two
line items repeat the existing product id 1 references no missing product,
yet order placement answers Not-Found, because `findMany` returns one row
for the two items and the `products.length !== items.length` gate fires. -/
theorem C2_counterexample :
    (requestIds (guestReq [⟨1, 1⟩, ⟨1, 1⟩])).all
        (fun pid => demoState.products.any (fun p => p.id == pid)) = true ∧
    (placeOrder demoState (guestReq [⟨1, 1⟩, ⟨1, 1⟩]) "OM2510110001" "OILAAAAAAAA").1
      = .notFound "Some products not found" ∧
    (placeOrder demoState (guestReq [⟨1, 1⟩, ⟨1, 1⟩]) "OM2510110001" "OILAAAAAAAA").2
      = demoState := by
  norm_num [placeOrder, planOrder, lookedUp, requestIds, respOfError,
    demoState, demoProduct, guestReq]

/-- C2 (amended): with distinct product ids in the store, order placement
answers Not-Found — with no mutation — when some requested id resolves to no
product, and also when the line items repeat a product id; when the ids are
pairwise distinct and all resolve, the response is never Not-Found. -/
theorem C2_notFound_gate :
    ∀ (st : MarketState) (req : OrderRequest) (orderNo trackNo : String),
      (st.products.map Product.id).Nodup →
      ((∃ pid ∈ requestIds req, ∀ p ∈ st.products, p.id ≠ pid) →
          placeOrder st req orderNo trackNo = (.notFound "Some products not found", st)) ∧
      (¬ (requestIds req).Nodup →
          placeOrder st req orderNo trackNo = (.notFound "Some products not found", st)) ∧
      ((requestIds req).Nodup →
        (∀ pid ∈ requestIds req, ∃ p ∈ st.products, p.id = pid) →
          isNotFoundResp (placeOrder st req orderNo trackNo).1 = false) := by
  intro st req orderNo trackNo hnodup
  refine ⟨?_, ?_, ?_⟩
  · rintro ⟨pid, hpid, hmiss⟩
    have hgate := gate_fail_missing hnodup hpid hmiss
    unfold placeOrder planOrder
    rw [if_pos hgate]
    rfl
  · intro hdup
    have hgate := gate_fail_dup hnodup hdup
    unfold placeOrder planOrder
    rw [if_pos hgate]
    rfl
  · intro hids hall
    have hgate := gate_pass hnodup hids hall
    have hfind := find?_isSome_of_present hall
    unfold placeOrder planOrder
    rw [if_neg (by rw [hgate]; exact fun hc => hc rfl)]
    cases hc : checkItems (lookedUp st req) req.items 0 [] [] with
    | error e =>
      obtain ⟨pid, nm, av, rfl⟩ := checkItems_error_shape _ _ hfind _ _ _ _ hc
      rfl
    | ok plan =>
      cases req.userId with
      | none => rfl
      | some uid =>
        simp only [afterCommit]
        cases refreshUser (commitOrder st req plan orderNo trackNo).users uid
            req.phone req.contactName req.email with
        | none => rfl
        | some users1 => rfl

/-- C2, witness: the duplicate-id branch of `C2_notFound_gate` applied to the
concrete store and request of the counterexample. -/
theorem C2_notFound_gate_witness :
    (demoState.products.map Product.id).Nodup ∧
    placeOrder demoState (guestReq [⟨1, 1⟩, ⟨1, 1⟩]) "OM2510110001" "OILAAAAAAAA"
      = (.notFound "Some products not found", demoState) :=
  ⟨by decide,
   (C2_notFound_gate demoState (guestReq [⟨1, 1⟩, ⟨1, 1⟩]) "OM2510110001" "OILAAAAAAAA"
      (by decide)).2.1 (by decide)⟩

/-! ## C3 -/

/-- C3, counterexample: in a request whose first line asks for 9 units of
product 1 (stock 5, so this line is insufficient) and whose second line
references the missing product id 2, placement answers Not-Found, not the
Insufficient-Stock failure the claim promises for every request containing an
insufficient line. -/
theorem C3_counterexample :
    demoState.products.find? (fun p => p.id == 1) = some demoProduct ∧
    demoProduct.stock < 9 ∧
    (placeOrder demoState (guestReq [⟨1, 9⟩, ⟨2, 1⟩]) "OM2510110001" "OILAAAAAAAA").1
      = .notFound "Some products not found" ∧
    isInsufficientResp
      (placeOrder demoState (guestReq [⟨1, 9⟩, ⟨2, 1⟩]) "OM2510110001" "OILAAAAAAAA").1
      = false := by
  norm_num [placeOrder, planOrder, lookedUp, requestIds, respOfError, isInsufficientResp,
    demoState, demoProduct, guestReq, List.find?]

/-- C3 (amended): for a request whose product ids are pairwise distinct and
all resolve, if every line before `bad` has sufficient stock and `bad`'s
product has stock below the requested quantity, placement aborts at `bad`
with the Insufficient-Stock failure naming that product's id, name and
available quantity, and the store is unchanged. -/
theorem C3_first_insufficient :
    ∀ (st : MarketState) (req : OrderRequest) (orderNo trackNo : String)
      (pre : List ReqItem) (bad : ReqItem) (post : List ReqItem),
      (st.products.map Product.id).Nodup →
      req.items = pre ++ bad :: post →
      (requestIds req).Nodup →
      (∀ pid ∈ requestIds req, ∃ p ∈ st.products, p.id = pid) →
      (∀ it ∈ pre, ∀ p ∈ st.products, p.id = it.productId → it.quantity ≤ p.stock) →
      (∀ p ∈ st.products, p.id = bad.productId → p.stock < bad.quantity) →
      ∃ p, p ∈ st.products ∧ p.id = bad.productId ∧ p.stock < bad.quantity ∧
        placeOrder st req orderNo trackNo
          = (.insufficientStock
              ("Insufficient stock for " ++ p.name ++ ". Available: " ++ toString p.stock)
              p.id, st) := by
  intro st req orderNo trackNo pre bad post hnodup hitems hids hall hpre hbad
  have hgate := gate_pass hnodup hids hall
  have hfind := find?_isSome_of_present hall
  have hfind' : ∀ it ∈ pre ++ bad :: post,
      ((lookedUp st req).find? (fun p => p.id == it.productId)).isSome := by
    intro it hit
    exact hfind it (by rw [hitems]; exact hit)
  have hpre' : ∀ it ∈ pre, ∀ p ∈ lookedUp st req,
      p.id = it.productId → it.quantity ≤ p.stock := by
    intro it hit p hp hpe
    exact hpre it hit p (List.mem_filter.mp hp).1 hpe
  have hbad' : ∀ p ∈ lookedUp st req, p.id = bad.productId → p.stock < bad.quantity := by
    intro p hp hpe
    exact hbad p (List.mem_filter.mp hp).1 hpe
  obtain ⟨p, hpmem, hpid, hch⟩ :=
    checkItems_first_insufficient (lookedUp st req) pre bad post 0 [] [] hfind' hpre' hbad'
  have hpst : p ∈ st.products := (List.mem_filter.mp hpmem).1
  refine ⟨p, hpst, hpid, hbad p hpst hpid, ?_⟩
  unfold placeOrder planOrder
  rw [if_neg (by rw [hgate]; exact fun hc => hc rfl)]
  rw [hitems, hch]
  rfl

/-- C3, witness: `C3_first_insufficient` at a concrete two-product store —
the first line is satisfiable, the second asks for 99 units of product 2
(stock 3) — yielding exactly the Insufficient-Stock response for product 2
with the store untouched. -/
theorem C3_first_insufficient_witness :
    placeOrder demoState2 (guestReq [⟨1, 1⟩, ⟨2, 99⟩]) "OM2510110001" "OILAAAAAAAA"
      = (.insufficientStock
          ("Insufficient stock for " ++ demoProduct2.name ++ ". Available: "
            ++ toString demoProduct2.stock)
          demoProduct2.id, demoState2) := by
  obtain ⟨p, hp, hpid, hstock, heq⟩ :=
    C3_first_insufficient demoState2 (guestReq [⟨1, 1⟩, ⟨2, 99⟩])
      "OM2510110001" "OILAAAAAAAA" [⟨1, 1⟩] ⟨2, 99⟩ []
      (by decide) rfl (by decide) (by decide) (by decide) (by decide)
  have hp2 : p = demoProduct ∨ p = demoProduct2 := by
    simpa [demoState2] using hp
  rcases hp2 with rfl | rfl
  · exact absurd hpid (by decide)
  · exact heq

/-! ## C4 -/

/-- C4: when the plan phase succeeds, exactly one order row is appended; its
`totalAmount` is the sum over its line items of `priceEach × quantity`; the
line items correspond one-to-one to the requested items, each snapshotting
`priceEach` from a product currently in the store with the item's product id;
and a later price update of any product leaves the stored orders — hence
every stored `priceEach` and `totalAmount` — unchanged. -/
theorem C4_total_snapshot :
    ∀ (st : MarketState) (req : OrderRequest) (orderNo trackNo : String) (plan : OrderPlan),
      planOrder st req = .ok plan →
      ∃ newOrder : Order,
        ((placeOrder st req orderNo trackNo).2).orders = st.orders ++ [newOrder] ∧
        newOrder.totalAmount
          = (newOrder.items.map (fun x => x.priceEach * (x.quantity : ℚ))).sum ∧
        List.Forall₂ (fun (it : ReqItem) (x : OrderItem) =>
          x.productId = it.productId ∧ x.quantity = it.quantity ∧
          ∃ p, p ∈ st.products ∧ p.id = it.productId ∧ x.priceEach = p.price)
          req.items newOrder.items ∧
        (∀ (pid : Nat) (newPrice : ℚ),
          (updateProductPrice ((placeOrder st req orderNo trackNo).2) pid newPrice).orders
            = ((placeOrder st req orderNo trackNo).2).orders) := by
  intro st req orderNo trackNo plan h
  have hplan := h
  unfold planOrder at hplan
  by_cases hgate : (lookedUp st req).length ≠ req.items.length
  · rw [if_pos hgate] at hplan; cases hplan
  · rw [if_neg hgate] at hplan
    obtain ⟨rest, h1, h2, h3⟩ := checkItems_ok _ _ _ _ _ _ hplan
    have hitems : (newOrderOf st req plan orderNo trackNo).items = rest := by
      show plan.orderItems = rest
      rw [h1]; rfl
    refine ⟨newOrderOf st req plan orderNo trackNo,
      (placeOrder_ok_state orderNo trackNo h).1, ?_, ?_, ?_⟩
    · show plan.totalAmount = _
      rw [hitems, h2, zero_add]
    · rw [hitems]
      refine h3.imp ?_
      intro it x hx
      obtain ⟨hxid, hxq, p, hp, hpe, hprice⟩ := hx
      exact ⟨hxid, hxq, p, (List.mem_filter.mp hp).1, hpe, hprice⟩
    · intro pid newPrice
      rfl

/-- The first product of the C4 witness scenario (price 3499.99, stock 5). -/
def c4Product1 : Product :=
  { demoProduct with id := 1, price := 3499.99, stock := 5 }

/-- The second product of the C4 witness scenario (price 1899.99, stock 4). -/
def c4Product2 : Product :=
  { demoProduct2 with id := 2, price := 1899.99, stock := 4 }

/-- The store of the C4 witness scenario. -/
def c4State : MarketState := ⟨[c4Product1, c4Product2], [], []⟩

/-- Two of product 1 and one of product 2. -/
def c4Req : OrderRequest := guestReq [⟨1, 2⟩, ⟨2, 1⟩]

/-- The plan the check loop computes for `c4Req`:
3499.99 × 2 + 1899.99 × 1 = 8899.97. -/
def c4Plan : OrderPlan :=
  { totalAmount := 8899.97
    stockUpdates := [(1, 3), (2, 3)]
    orderItems := [⟨1, 2, 3499.99⟩, ⟨2, 1, 1899.99⟩] }

/-- C4, witness: `C4_total_snapshot` applied to the concrete two-line order of
the specification's total-correctness example; exactly one order row lands
and its total is 8899.97. -/
theorem C4_total_snapshot_witness :
    c4Plan.totalAmount = 8899.97 ∧
    ((placeOrder c4State c4Req "OM2510110001" "OILAAAAAAAA").2).orders.length
      = c4State.orders.length + 1 := by
  have hplan : planOrder c4State c4Req = .ok c4Plan := by
    norm_num [planOrder, lookedUp, requestIds, checkItems, c4State, c4Req, c4Plan,
      c4Product1, c4Product2, demoProduct, demoProduct2, guestReq,
      List.find?_cons_of_pos, List.find?_cons_of_neg]
  obtain ⟨o, h1, h2, h3, h4⟩ :=
    C4_total_snapshot c4State c4Req "OM2510110001" "OILAAAAAAAA" c4Plan hplan
  refine ⟨rfl, ?_⟩
  rw [h1]
  simp

/-! ## C5 -/

theorem string_mk_data (l : List Char) : (String.mk l).data = l := rfl

theorem drop_two_cons_cons {α : Type} (a b : α) (l : List α) :
    (a :: b :: l).drop 2 = l := rfl

/-- C5, counterexample: the tracking token is not always 8 characters.  For
the draw 0.5 — whose base-36 expansion is the single digit 18, printed `"0.i"`
— `substring(2, 10)` keeps one character, so the generated number is `"OILI"`,
4 characters instead of the 11 the claim requires. -/
theorem C5_counterexample :
    [18].all (fun d => decide (d < 36)) = true ∧
    generateTrackingNumber none [18] = "OILI" ∧
    (generateTrackingNumber none [18]).length ≠ "OIL".length + 8 := by
  refine ⟨by decide, by decide, by decide⟩

/-- C5 (amended): the order number is the configured prefix (default "OM")
followed by the YYMMDD date and a 4-digit decimal suffix; the tracking number
is the configured prefix (default "OIL") followed by the upper-cased base-36
digits of the random draw truncated to at most 8 characters — exactly
`min 8 k` characters where `k` is the length of the draw's base-36 expansion,
so shorter than 8 whenever the expansion terminates early. -/
theorem C5_generators :
    ∀ (pfxO pfxT : Option String) (year month day rand : Nat) (digits : List Nat),
      1000 ≤ year → year ≤ 9999 → month ≤ 12 → day ≤ 31 → rand < 10000 →
      (∀ d ∈ digits, d < 36) →
      (generateOrderNumber pfxO year month day rand
          = pfxO.getD "OM" ++ yymmdd year month day ++ padStart4Zero (toString rand) ∧
        (yymmdd year month day).length = 6 ∧
        (padStart4Zero (toString rand)).length = 4 ∧
        (padStart4Zero (toString rand)).data.all Char.isDigit = true) ∧
      (generateTrackingNumber pfxT digits
          = pfxT.getD "OIL"
              ++ String.mk ((digits.take 8).map (fun d => (base36Char d).toUpper)) ∧
        (String.mk ((digits.take 8).map (fun d => (base36Char d).toUpper))).length
          = min 8 digits.length) := by
  intro pfxO pfxT year month day rand digits hy1 hy2 hm hd hr hdig
  have htos : toString rand = Nat.repr rand := rfl
  refine ⟨⟨rfl, ?_, ?_, ?_⟩, ?_, ?_⟩
  · unfold yymmdd
    rw [String.length_append, String.length_append,
      pad2_length (Nat.mod_lt _ (by norm_num)),
      pad2_length (by omega), pad2_length (by omega)]
  · rw [htos]
    exact padStart4Zero_length (Nat.repr_length rand 4 (by norm_num) hr)
  · rw [htos]
    exact padStart4Zero_digits (repr_all_digits rand)
  · cases digits with
    | nil => rfl
    | cons d ds =>
      unfold generateTrackingNumber jsNumToString36
      simp only [List.isEmpty_cons, Bool.false_eq_true, if_false, string_mk_data,
        drop_two_cons_cons]
      have h1 : ((d :: ds).map base36Char).take 8 = ((d :: ds).take 8).map base36Char := by
        rw [List.map_take]
      rw [h1, List.map_map]
      rfl
  · rw [string_mk_length, List.length_map, List.length_take]

/-- C5, witness: `C5_generators` on the draw with base-36 expansion
`[18, 1, 2]` (three digits, so a 3-character token) dated 2025-10-11 with
random suffix 7. -/
theorem C5_generators_witness :
    (generateOrderNumber none 2025 10 11 7
        = (none : Option String).getD "OM" ++ yymmdd 2025 10 11
            ++ padStart4Zero (toString 7) ∧
      (yymmdd 2025 10 11).length = 6 ∧
      (padStart4Zero (toString 7)).length = 4 ∧
      (padStart4Zero (toString 7)).data.all Char.isDigit = true) ∧
    (generateTrackingNumber none [18, 1, 2]
        = (none : Option String).getD "OIL"
            ++ String.mk (([18, 1, 2].take 8).map (fun d => (base36Char d).toUpper)) ∧
      (String.mk (([18, 1, 2].take 8).map (fun d => (base36Char d).toUpper))).length
        = min 8 [18, 1, 2].length) :=
  C5_generators none none 2025 10 11 7 [18, 1, 2]
    (by decide) (by decide) (by decide) (by decide) (by decide) (by decide)

/-! ## C6 -/

/-- C6: on the tracking read path, when the tracking number resolves to an
order and a non-empty phone is supplied: a phone differing from the order's
stored phone yields the Forbidden response carrying no order data, and a
matching phone yields the order with the `deliveryAddress` and `email` fields
dropped — the returned value does not depend on those two fields at all. -/
theorem C6_tracking_access :
    ∀ (st : MarketState) (tn ph : String) (o : Order),
      ph ≠ "" →
      st.orders.find? (fun o' => o'.trackingNumber == tn) = some o →
      (o.phone ≠ ph →
        trackOrder st tn (some ph)
          = .forbidden "Access denied. Phone number does not match.") ∧
      (o.phone = ph →
        trackOrder st tn (some ph) = .ok (safeOrderOf o) ∧
        ∀ (addr : Option Address) (em : Option String),
          safeOrderOf { o with deliveryAddress := addr, email := em } = safeOrderOf o) := by
  intro st tn ph o hph hfind
  simp only [trackOrder]
  rw [if_neg hph, hfind]
  constructor
  · intro hne
    exact if_pos hne
  · intro heq
    exact ⟨if_neg (fun hc => hc heq), fun addr em => rfl⟩

/-- The order of the C6 witness scenario. -/
def demoOrder : Order :=
  { id := 1, orderNumber := "OM2510110001", userId := none, contactName := "Ivan Petrov",
    phone := "79990000000", email := some "ivan@example.com", deliveryMethod := "delivery",
    deliveryAddress := some ⟨"Moscow", "Tverskaya", "1", none, none⟩,
    paymentMethod := "card", totalAmount := 300, status := "new",
    trackingNumber := "OILTRACK1", notes := none,
    items := [⟨1, 3, 100⟩] }

/-- The store of the C6 witness scenario. -/
def demoTrackState : MarketState := ⟨[demoProduct], [demoOrder], []⟩

/-- C6, witness: `C6_tracking_access` on the concrete store — the mismatching
phone is refused with Forbidden, the matching phone receives the redacted
order, and the redaction is insensitive to the address and email fields. -/
theorem C6_tracking_access_witness :
    trackOrder demoTrackState "OILTRACK1" (some "70000000000")
      = .forbidden "Access denied. Phone number does not match." ∧
    trackOrder demoTrackState "OILTRACK1" (some "79990000000")
      = .ok (safeOrderOf demoOrder) ∧
    safeOrderOf { demoOrder with
        deliveryAddress := none, email := none } = safeOrderOf demoOrder :=
  ⟨(C6_tracking_access demoTrackState "OILTRACK1" "70000000000" demoOrder
      (by decide) (by decide)).1 (by decide),
   ((C6_tracking_access demoTrackState "OILTRACK1" "79990000000" demoOrder
      (by decide) (by decide)).2 rfl).1,
   ((C6_tracking_access demoTrackState "OILTRACK1" "79990000000" demoOrder
      (by decide) (by decide)).2 rfl).2 none none⟩

/-! ## C7 -/

/-- An out-of-stock catalog entry with brand "A". -/
def c7OutOfStock : Product :=
  { demoProduct with id := 1, brand := some "A", stock := 0, volume_ml := some 1000 }

/-- An in-stock catalog entry with brand "B". -/
def c7InStock : Product :=
  { demoProduct with
      id := 2
      sku := some "OIL-B-000002"
      brand := some "B"
      stock := 3
      volume_ml := some 4000 }

/-- The two-product catalog of the C7 scenario. -/
def c7Catalog : List Product := [c7OutOfStock, c7InStock]

/-- C7, counterexample: with the stock-presence filter `inStock=false` active,
the route aggregates the facets over the full catalog (products.js line 575
narrows the facet query only for `inStock === 'true'`), so the brand facet
lists "B" although no stock-filtered (zero-stock) product carries it — the
claim's stock-filtered facet set would be `["A"]`. -/
theorem C7_counterexample :
    (runCatalog c7Catalog { inStock := some "false" }).brands = ["A", "B"] ∧
    facetStrings (specStockFilteredSet c7Catalog (some "false")) (fun p => p.brand)
      = ["A"] ∧
    (runCatalog c7Catalog { inStock := some "false" }).brands
      ≠ facetStrings (specStockFilteredSet c7Catalog (some "false")) (fun p => p.brand) := by
  refine ⟨by decide, by decide, by decide⟩

/-- C7 (amended): every facet list — brands, types, viscosities,
applications, volumes — is aggregated over the in-stock subcatalog exactly
when the stock filter is `inStock=true` and over the full catalog otherwise
(including for the active filter `inStock=false`); each list is sorted,
duplicate-free, and contains exactly the non-null, non-empty values occurring
on that facet source; and the reported price range always bounds the entire
catalog's prices, independently of every filter parameter. -/
theorem C7_facets :
    ∀ (catalog : List Product) (ps : CatalogParams),
      FacetStringOk (runCatalog catalog ps).brands (facetSourceOf catalog ps)
        (fun p => p.brand) ∧
      FacetStringOk (runCatalog catalog ps).types (facetSourceOf catalog ps)
        (fun p => p.type) ∧
      FacetStringOk (runCatalog catalog ps).viscosities (facetSourceOf catalog ps)
        (fun p => p.viscosity) ∧
      FacetStringOk (runCatalog catalog ps).applications (facetSourceOf catalog ps)
        (fun p => p.application) ∧
      FacetVolumeOk (runCatalog catalog ps).volumes (facetSourceOf catalog ps) ∧
      (runCatalog catalog ps).priceMin = priceMinOf catalog ∧
      (runCatalog catalog ps).priceMax = priceMaxOf catalog ∧
      (∀ p ∈ catalog, (runCatalog catalog ps).priceMin ≤ p.price ∧
        p.price ≤ (runCatalog catalog ps).priceMax) := by
  intro catalog ps
  refine ⟨facetStrings_ok _ _, facetStrings_ok _ _, facetStrings_ok _ _,
    facetStrings_ok _ _, facetVolumes_ok _, rfl, rfl, ?_⟩
  intro p hp
  exact ⟨priceMinOf_le catalog p hp, le_priceMaxOf catalog p hp⟩

/-- C7, witness: the facet aggregation of `C7_facets` at the concrete catalog
with `inStock=true` — the brand facet is exactly the sorted duplicate-free
in-stock brand list, and the price range is the catalog-wide aggregate. -/
theorem C7_facets_witness :
    (runCatalog c7Catalog { inStock := some "true" }).brands = ["B"] ∧
    (runCatalog c7Catalog { inStock := some "true" }).brands.Nodup ∧
    (runCatalog c7Catalog { inStock := some "true" }).priceMin = priceMinOf c7Catalog ∧
    (runCatalog c7Catalog { inStock := some "true" }).priceMax = priceMaxOf c7Catalog := by
  have h := C7_facets c7Catalog { inStock := some "true" }
  exact ⟨by decide, h.1.2.1, h.2.2.2.2.2.1, h.2.2.2.2.2.2.1⟩

/-! ## C8 -/

theorem placeOrder_eq_ok {st : MarketState} {req : OrderRequest} {plan : OrderPlan}
    (orderNo trackNo : String) (h : planOrder st req = .ok plan) :
    placeOrder st req orderNo trackNo
      = afterCommit (commitOrder st req plan orderNo trackNo)
          (.created (st.orders.length + 1) orderNo trackNo plan.totalAmount "new")
          req.userId req.phone req.contactName req.email := by
  unfold placeOrder
  rw [h]

/-- C9, counterexample to "silently swallowed": with an order tied to the
nonexistent user id 7, the transaction commits (one order row lands and the
stock drops from 5 to 2) and is not rolled back, but the failing user refresh
is not swallowed — the route's catch answers with the server-error response
instead of the success payload. -/
theorem C9_counterexample :
    (placeOrder demoState (userReq 7 [⟨1, 3⟩]) "OM2510110001" "OILAAAAAAAA").1
      = .serverError ∧
    ((placeOrder demoState (userReq 7 [⟨1, 3⟩]) "OM2510110001" "OILAAAAAAAA").2).orders.length
      = demoState.orders.length + 1 ∧
    stockOf (placeOrder demoState (userReq 7 [⟨1, 3⟩]) "OM2510110001" "OILAAAAAAAA").2 1
      = some 2 := by
  norm_num [placeOrder, planOrder, lookedUp, requestIds, checkItems, commitOrder,
    newOrderOf, applyStockUpdates, updateStock, afterCommit, refreshUser, stockOf,
    demoState, demoProduct, guestReq, userReq,
    List.find?_cons_of_pos, List.find?_cons_of_neg]

/-- C9 (amended): the user-info refresh runs after the atomic order+stock
unit, and its failure does not roll that unit back — the committed order row
and stock writes stay, and the user table is untouched — but the failure is
not silently swallowed: the route reports the server-error response in place
of the success payload. -/
theorem C9_refresh_failure :
    ∀ (st : MarketState) (req : OrderRequest) (orderNo trackNo : String)
      (uid : Nat) (plan : OrderPlan),
      req.userId = some uid →
      planOrder st req = .ok plan →
      (∀ u ∈ st.users, u.id ≠ uid) →
      placeOrder st req orderNo trackNo
        = (.serverError, commitOrder st req plan orderNo trackNo) ∧
      (commitOrder st req plan orderNo trackNo).orders
        = st.orders ++ [newOrderOf st req plan orderNo trackNo] ∧
      (commitOrder st req plan orderNo trackNo).users = st.users := by
  intro st req orderNo trackNo uid plan huid hplan hmiss
  have husers : (commitOrder st req plan orderNo trackNo).users = st.users := rfl
  have hany : st.users.any (fun u => u.id == uid) = false := by
    cases h : st.users.any (fun u => u.id == uid) with
    | false => rfl
    | true =>
      obtain ⟨u, hu, hb⟩ := List.any_eq_true.mp h
      exact absurd (by simpa using hb) (hmiss u hu)
  have hrefresh : refreshUser (commitOrder st req plan orderNo trackNo).users uid
      req.phone req.contactName req.email = none := by
    unfold refreshUser
    rw [husers, if_neg (by rw [hany]; exact Bool.false_ne_true)]
  refine ⟨?_, rfl, rfl⟩
  rw [placeOrder_eq_ok orderNo trackNo hplan, huid]
  simp only [afterCommit]
  rw [hrefresh]

/-- The plan the check loop computes for the C9 scenario (3 units of product
1 at price 100). -/
def c9Plan : OrderPlan :=
  { totalAmount := 300, stockUpdates := [(1, 2)], orderItems := [⟨1, 3, 100⟩] }

/-- C9, witness: `C9_refresh_failure` at the concrete store with no users —
the response is the server error while the committed transaction stays. -/
theorem C9_refresh_failure_witness :
    placeOrder demoState (userReq 7 [⟨1, 3⟩]) "OM2510110001" "OILAAAAAAAA"
      = (.serverError,
         commitOrder demoState (userReq 7 [⟨1, 3⟩]) c9Plan "OM2510110001" "OILAAAAAAAA") :=
  (C9_refresh_failure demoState (userReq 7 [⟨1, 3⟩]) "OM2510110001" "OILAAAAAAAA" 7 c9Plan
    rfl
    (by norm_num [planOrder, lookedUp, requestIds, checkItems, c9Plan, demoState,
      demoProduct, guestReq, userReq, List.find?_cons_of_pos, List.find?_cons_of_neg])
    (by decide)).1

end OilMarket
